import Mathlib

/-!
Shallow embedding of the ASA-Fusion decision-procedure orchestration core
(apps/asa_fusion): input validator, problem analyzer, Presburger and
Diophantine plugin procedures, the procedure registry with priority/fallback
dispatch, the orchestration engine, and the batch processor.

Python strings are modelled as `List Char`.  The character-class predicates
(word/space/digit/printable) are modelled on the ASCII range, which covers
every string handled in the development; Python additionally classifies some
code points above 0x7f, which no theorem here depends on.  Wall-clock
execution times (Python time.time() deltas) are modelled as 0, and the
sandbox wrapper is modelled by its success path (its timeout/memory faults
are real-time behaviours outside a pure model).
-/

namespace ASAFusion

/-! ## Character classes and basic Python string operations -/

/-- Decimal digit, the regex class matched by a digit in the source patterns. -/
def isDigitCh (c : Char) : Bool := '0' ≤ c && c ≤ '9'

/-- Word character (regex word class, ASCII model): letters, digits, underscore. -/
def isWordCh (c : Char) : Bool :=
  isDigitCh c || ('a' ≤ c && c ≤ 'z') || ('A' ≤ c && c ≤ 'Z') || c == '_'

/-- Python whitespace (str.isspace / regex space class), ASCII model. -/
def isSpaceCh (c : Char) : Bool :=
  c == ' ' || c == '\t' || c == '\n' || c == '\r' || c == '\x0b' || c == '\x0c'

/-- Lowercase ASCII letter, the regex class [a-z] used by the heuristics. -/
def isLowerCh (c : Char) : Bool := 'a' ≤ c && c ≤ 'z'

/-- Python str.isprintable, ASCII model: space through tilde. -/
def pyIsPrintable (c : Char) : Bool := 0x20 ≤ c.toNat && c.toNat ≤ 0x7e

/-- Python str.lower on one character (ASCII model). -/
def pyLowerCh (c : Char) : Char :=
  if 'A' ≤ c && c ≤ 'Z' then Char.ofNat (c.toNat + 32) else c

/-- Python str.lower (ASCII model). -/
def pyLower (l : List Char) : List Char := l.map pyLowerCh

/-- Python str.strip(): drop leading and trailing whitespace. -/
def pyStrip (l : List Char) : List Char :=
  ((l.dropWhile isSpaceCh).reverse.dropWhile isSpaceCh).reverse

/-- Helper for pySplit: accumulates the current word (reversed) while scanning. -/
def pySplitAux : List Char → List Char → List (List Char)
  | [], cur => if cur.isEmpty then [] else [cur.reverse]
  | c :: cs, cur =>
      if isSpaceCh c then
        if cur.isEmpty then pySplitAux cs [] else cur.reverse :: pySplitAux cs []
      else pySplitAux cs (c :: cur)

/-- Python str.split() with no arguments: split on whitespace runs, no empty parts. -/
def pySplit (l : List Char) : List (List Char) := pySplitAux l []

/-- Python ' '.join(words): concatenate with a single-space separator. -/
def joinWords : List (List Char) → List Char
  | [] => []
  | [w] => w
  | w :: w2 :: ws => w ++ ' ' :: joinWords (w2 :: ws)

/-- Substring containment (Python "pat in s" / re.search of a literal pattern). -/
def containsSub (pat l : List Char) : Bool := l.tails.any fun t => pat.isPrefixOf t

/-- Fuel-driven kernel of natToDec; the fuel always exceeds the number. -/
def natToDecAux : Nat → Nat → List Char
  | 0, _ => []
  | fuel + 1, n =>
      if n < 10 then [Char.ofNat (48 + n)]
      else natToDecAux fuel (n / 10) ++ [Char.ofNat (48 + n % 10)]

/-- Decimal rendering of a natural number (Python str(n) for n >= 0). -/
def natToDec (n : Nat) : List Char := natToDecAux (n + 1) n

/-- Numeric value of a digit character. -/
def digitVal (c : Char) : Nat := c.toNat - 48

/-- Python int() on a string of decimal digits. -/
def decVal (l : List Char) : Nat := l.foldl (fun acc c => acc * 10 + digitVal c) 0

/-! ## Regex-backtracking helpers

A greedy quantifier over a character class is modelled by the list of
candidate (consumed, remaining) splits in the backtracking engine's
preference order (longest consumed first); composing candidate lists with
List.findSome? reproduces the leftmost backtracking semantics of re.match. -/

/-- Candidate splits for a greedy one-or-more quantifier over class p,
longest first. -/
def plusSplits (p : Char → Bool) (l : List Char) :
    List (List Char × List Char) :=
  let pre := l.takeWhile p
  let suf := l.dropWhile p
  (List.range pre.length).map fun i =>
    (pre.take (pre.length - i), pre.drop (pre.length - i) ++ suf)

/-- Candidate splits for a greedy zero-or-more quantifier over class p,
longest first, ending with the empty consumption. -/
def starSplits (p : Char → Bool) (l : List Char) :
    List (List Char × List Char) :=
  plusSplits p l ++ [([], l)]

/-- Candidate splits for an optional literal character, present first. -/
def optSplits (c : Char) (l : List Char) : List (List Char × List Char) :=
  match l with
  | d :: rest => if d = c then [([d], rest), ([], l)] else [([], l)]
  | [] => [([], l)]

/-- Tail of the linear-Diophantine pattern after its leading digits and the
plus sign: digits, word, then = and the right-hand digits, with the regex
spacing and optional star.  Returns (b, yVar, c). -/
def matchLinTail (r : List Char) : Option (Nat × List Char × Nat) :=
  (plusSplits isDigitCh r).findSome? fun bd =>
  (starSplits isSpaceCh bd.2).findSome? fun s1 =>
  (optSplits '*' s1.2).findSome? fun o1 =>
  (starSplits isSpaceCh o1.2).findSome? fun s2 =>
  (plusSplits isWordCh s2.2).findSome? fun yv =>
  (starSplits isSpaceCh yv.2).findSome? fun s3 =>
  match s3.2 with
  | '=' :: r2 =>
      (starSplits isSpaceCh r2).findSome? fun s4 =>
      let d := s4.2.takeWhile isDigitCh
      if d.isEmpty then none else some (decVal bd.1, yv.1, decVal d)
  | _ => none

/-- The regex of DiophantineProcedure.decide, anchored at the start
(re.match), unanchored at the end: digits, optional star, word, plus,
digits, optional star, word, equals, digits, with optional spacing.
Returns (a, xVar, b, yVar, c). -/
def matchLinear (l : List Char) :
    Option (Nat × List Char × Nat × List Char × Nat) :=
  (plusSplits isDigitCh l).findSome? fun ad =>
  (starSplits isSpaceCh ad.2).findSome? fun s1 =>
  (optSplits '*' s1.2).findSome? fun o1 =>
  (starSplits isSpaceCh o1.2).findSome? fun s2 =>
  (plusSplits isWordCh s2.2).findSome? fun xv =>
  (starSplits isSpaceCh xv.2).findSome? fun s3 =>
  match s3.2 with
  | '+' :: r1 =>
      (starSplits isSpaceCh r1).findSome? fun s4 =>
      (matchLinTail s4.2).map fun bc =>
        (decVal ad.1, xv.1, bc.1, bc.2.1, bc.2.2)
  | _ => none

/-- The regex of PresburgerProcedure.decide, anchored at the start
(re.match), unanchored at the end: a word, an equals sign, digits, with
optional spacing.  Returns (variable, value). -/
def matchVarEq (l : List Char) : Option (List Char × Nat) :=
  (plusSplits isWordCh l).findSome? fun v =>
  (starSplits isSpaceCh v.2).findSome? fun s1 =>
  match s1.2 with
  | '=' :: r1 =>
      (starSplits isSpaceCh r1).findSome? fun s2 =>
      let d := s2.2.takeWhile isDigitCh
      if d.isEmpty then none else some (v.1, decVal d)
  | _ => none

/-! ## Data model (core/interfaces.py) -/

/-- ProblemType enumeration (core/interfaces.py). -/
inductive ProblemType where
  | PRESBURGER
  | DIOPHANTINE
  | LINEAR_ARITHMETIC
  | NONLINEAR_ARITHMETIC
  | BOOLEAN_LOGIC
  | QUANTIFIER_FREE
  | GENERAL
  | UNKNOWN
deriving DecidableEq, Repr

/-- A metadata value: the open Dict[str, Any] bags in the source hold strings
and integers. -/
inductive MetaVal where
  | s (v : List Char)
  | i (v : Int)
deriving DecidableEq, Repr

/-- SolverResult dataclass (core/interfaces.py).  satisfiable: some true =
SAT, some false = UNSAT, none = UNKNOWN.  The model maps variable names to
integers.  execution_time_ms is clock-derived in the source and modelled
as 0. -/
structure SolverResult where
  satisfiable : Option Bool
  model : Option (List (List Char × Int)) := none
  explanation : Option (List Char) := none
  solver_name : List Char := "unknown".toList
  execution_time_ms : Nat := 0
  metadata : List (List Char × MetaVal) := []
deriving DecidableEq, Repr

/-- A decision procedure: the DecisionProcedure interface data
(core/interfaces.py) as a record of its name, capability check, decide
operation and priority. -/
structure Procedure where
  name : List Char
  can_handle : List Char → Option ProblemType → Bool
  decide : List Char → Nat → SolverResult
  get_priority : Int

/-! ## Validator (security/validator.py) -/

/-- ValidationResult dataclass (security/validator.py). -/
structure ValidationResult where
  is_valid : Bool
  errors : List (List Char)
  warnings : List (List Char)
  sanitized_input : Option (List Char) := none
deriving DecidableEq, Repr

/-- InputValidator construction parameters (max_input_size,
max_nesting_depth). -/
structure InputValidator where
  max_input_size : Nat := 10000
  max_nesting_depth : Nat := 50
deriving DecidableEq, Repr

/-- One step of InputValidator._check_nesting_depth: openers increment,
closers decrement saturating at zero; the running maximum is tracked. -/
def nestingStep : Nat × Nat → Char → Nat × Nat
  | (maxd, cur), c =>
    if c = '(' || c = '[' || c = '{' then (Nat.max maxd (cur + 1), cur + 1)
    else if c = ')' || c = ']' || c = '}' then (maxd, cur - 1)
    else (maxd, cur)

/-- InputValidator._check_nesting_depth. -/
def checkNestingDepth (l : List Char) : Nat := (l.foldl nestingStep (0, 0)).1

/-- Search for a dangerous pattern of the shape word-then-spaces-then-paren,
the regex form used for eval/exec/compile/open/system calls. -/
def searchCallPat (w : List Char) (l : List Char) : Bool :=
  l.tails.any fun t =>
    match t.dropPrefix? w with
    | some r =>
        match r.dropWhile isSpaceCh with
        | '(' :: _ => true
        | _ => false
    | none => false

/-- The DANGEROUS_PATTERNS deny list: each entry pairs the checker applied to
the lowercased input (re.IGNORECASE) with the pattern text used in the error
message. -/
def dangerousPatterns : List ((List Char → Bool) × List Char) :=
  [ (containsSub "__import__".toList, "__import__".toList),
    (searchCallPat "eval".toList, "eval\\s*\\(".toList),
    (searchCallPat "exec".toList, "exec\\s*\\(".toList),
    (searchCallPat "compile".toList, "compile\\s*\\(".toList),
    (searchCallPat "open".toList, "open\\s*\\(".toList),
    (searchCallPat "system".toList, "system\\s*\\(".toList),
    (containsSub "subprocess".toList, "subprocess".toList),
    (containsSub "../".toList, "\\.\\./".toList),
    (containsSub "<script".toList, "<script".toList) ]

/-- InputValidator._has_excessive_repetition with its default threshold. -/
def hasExcessiveRepetition (l : List Char) : Bool :=
  if l.length < 1000 then false
  else l.any fun c => l.count c > 1000

/-- The characters kept by InputValidator._sanitize: printable or
whitespace. -/
def keepCh (c : Char) : Bool := pyIsPrintable c || isSpaceCh c

/-- InputValidator._sanitize: strip non-printable non-whitespace characters,
then collapse whitespace runs to single spaces. -/
def sanitize (l : List Char) : List Char := joinWords (pySplit (l.filter keepCh))

/-- Errors collected by InputValidator.validate, in source order: size, null
bytes, nesting depth, dangerous patterns. -/
def validateErrors (v : InputValidator) (l : List Char) : List (List Char) :=
  (if l.length > v.max_input_size then
    ["Input exceeds maximum size of ".toList ++ natToDec v.max_input_size ++
      " characters".toList]
  else []) ++
  (if l.contains '\x00' then ["Input contains null bytes".toList] else []) ++
  (if checkNestingDepth l > v.max_nesting_depth then
    ["Nesting depth ".toList ++ natToDec (checkNestingDepth l) ++
      " exceeds maximum of ".toList ++ natToDec v.max_nesting_depth]
  else []) ++
  (dangerousPatterns.filterMap fun pat =>
    if pat.1 (pyLower l) then some ("Dangerous pattern detected: ".toList ++ pat.2)
    else none)

/-- The single warning message validate can emit. -/
def repetitionWarning : List Char :=
  "Input contains excessive repetition (potential DoS)".toList

/-- InputValidator.validate (security/validator.py). -/
def validate (v : InputValidator) (l : List Char) : ValidationResult :=
  let errors := validateErrors v l
  let warnings := if hasExcessiveRepetition l then [repetitionWarning] else []
  { is_valid := errors.length == 0
    errors := errors
    warnings := warnings
    sanitized_input := if errors.isEmpty then some (sanitize l) else none }

/-! ## Problem analyzer (ai_layer/analyzer.py)

Confidences are Python floats with exact dyadic values; they are modelled
as rationals. -/

/-- AnalysisResult dataclass (ai_layer/analyzer.py). -/
structure AnalysisResult where
  problem_type : ProblemType
  confidence : ℚ
  complexity_score : Nat
  recommended_solver : Option (List Char) := none
  suggested_transformations : List (List Char) := []
  reasoning : List Char := []
deriving DecidableEq, Repr

/-- Search for the pattern letter-spaces-star-spaces-letter (variable
multiplied by variable); star and space characters are disjoint, so the
regex search is a deterministic scan. -/
def hasVarMult : List Char → Bool
  | [] => false
  | c :: rest =>
      (isLowerCh c &&
        (match rest.dropWhile isSpaceCh with
         | '*' :: r2 =>
             (match r2.dropWhile isSpaceCh with
              | d :: _ => isLowerCh d
              | [] => false)
         | _ => false)) ||
      hasVarMult rest

/-- Search for a power operator: caret, double star, or the pow keyword
(applied to the lowercased problem by every caller). -/
def hasPowerOp (l : List Char) : Bool :=
  containsSub ['^'] l || containsSub "**".toList l || containsSub "pow".toList l

/-- Search for a single lowercase letter with word boundaries on both sides
(the single-letter-variable regex); prev is the preceding character. -/
def hasSingleVarAux : Option Char → List Char → Bool
  | _, [] => false
  | prev, c :: rest =>
      (isLowerCh c &&
        (match prev with
         | none => true
         | some p => !isWordCh p) &&
        (match rest with
         | [] => true
         | d :: _ => !isWordCh d)) ||
      hasSingleVarAux (some c) rest

/-- Whether the text contains a single-letter variable token. -/
def hasSingleVar (l : List Char) : Bool := hasSingleVarAux none l

/-- The distinct single-letter variable tokens of the text, for the
complexity score (set of single-letter-variable regex matches). -/
def singleVarsAux : Option Char → List Char → List Char
  | _, [] => []
  | prev, c :: rest =>
      if isLowerCh c &&
          (match prev with
           | none => true
           | some p => !isWordCh p) &&
          (match rest with
           | [] => true
           | d :: _ => !isWordCh d) then
        c :: singleVarsAux (some c) rest
      else singleVarsAux (some c) rest

/-- ProblemAnalyzer._is_boolean_logic. -/
def isBooleanLogic (l : List Char) : Bool :=
  let lower := pyLower l
  let has_boolean :=
    containsSub "and".toList lower || containsSub "or".toList lower ||
    containsSub "not".toList lower || containsSub "true".toList lower ||
    containsSub "false".toList lower || containsSub "implies".toList lower
  let has_arithmetic :=
    l.any fun c => c = '+' || c = '-' || c = '*' || c = '/'
  has_boolean && !has_arithmetic

/-- ProblemAnalyzer._is_linear_arithmetic. -/
def isLinearArithmetic (l : List Char) : Bool :=
  let has_addition := l.any fun c => c = '+' || c = '-'
  let has_comparison := l.any fun c => c = '<' || c = '>' || c = '=' || c = '!'
  has_addition && has_comparison

/-- ProblemAnalyzer._is_nonlinear_arithmetic. -/
def isNonlinearArithmetic (l : List Char) : Bool :=
  hasPowerOp (pyLower l) || hasVarMult (pyLower l)

/-- ProblemAnalyzer._is_presburger. -/
def isPresburgerProblem (l : List Char) : Bool :=
  let has_arithmetic := l.any fun c => c = '+' || c = '-'
  has_arithmetic && !hasVarMult (pyLower l) && !hasPowerOp (pyLower l)

/-- The squared-term regex of ProblemAnalyzer._is_diophantine, searched on
the original (uncased) text. -/
def hasSquaredTerm (l : List Char) : Bool :=
  containsSub "^2".toList l || containsSub "**2".toList l ||
  containsSub "x*x".toList l || containsSub "y*y".toList l

/-- ProblemAnalyzer._is_diophantine: squared term or an integer hint
substring, together with an equals sign. -/
def isDiophantineProblem (l : List Char) : Bool :=
  let has_integer_hint :=
    containsSub "int".toList (pyLower l) || containsSub "integer".toList (pyLower l)
  (hasSquaredTerm l || has_integer_hint) && containsSub ['='] l

/-- One step of the analyzer's nesting-depth loop: unlike the validator's,
the depth counter is not clamped at zero. -/
def analyzerNestingStep : Int × Int → Char → Int × Int
  | (maxd, cur), c =>
    if c = '(' || c = '[' || c = '{' then (max maxd (cur + 1), cur + 1)
    else if c = ')' || c = ']' || c = '}' then (maxd, cur - 1)
    else (maxd, cur)

/-- ProblemAnalyzer._calculate_complexity. -/
def calculateComplexity (l : List Char) : Nat :=
  let score1 : Nat :=
    1 + (if l.length > 100 then 2 else if l.length > 50 then 1 else 0)
  let varCount := (singleVarsAux none (pyLower l)).dedup.length
  let score2 := score1 + min varCount 3
  let maxDepth := (l.foldl analyzerNestingStep (0, 0)).1
  let score3 := score2 + min (maxDepth.toNat / 2) 2
  let score4 := score3 + (if hasPowerOp (pyLower l) then 2 else 0)
  min score4 10

/-- ProblemAnalyzer._suggest_transformations. -/
def suggestTransformations (l : List Char) (t : ProblemType) : List (List Char) :=
  (if l.length > 100 then ["Consider breaking into smaller sub-problems".toList]
   else []) ++
  (if t = ProblemType.NONLINEAR_ARITHMETIC then
    ["Try linearization if applicable".toList,
     "Consider bounds on variables to simplify search".toList]
   else []) ++
  (if t = ProblemType.DIOPHANTINE then
    ["Check if problem can be reduced modulo small primes".toList]
   else [])

/-- The classification chain of ProblemAnalyzer.analyze: type, confidence,
recommended solver and reasoning, Diophantine checked first. -/
def classifyProblem (l : List Char) : ProblemType × ℚ × List Char × List Char :=
  if isDiophantineProblem l then
    (ProblemType.DIOPHANTINE, 3/4, "diophantine".toList,
      "Detected polynomial equation with integer constraints".toList)
  else if isPresburgerProblem l then
    (ProblemType.PRESBURGER, 4/5, "presburger".toList,
      "Detected linear integer arithmetic without multiplication".toList)
  else if isNonlinearArithmetic l then
    (ProblemType.NONLINEAR_ARITHMETIC, 7/10, "z3".toList,
      "Detected nonlinear arithmetic, recommend SMT solver".toList)
  else if isLinearArithmetic l then
    (ProblemType.LINEAR_ARITHMETIC, 17/20, "presburger".toList,
      "Detected linear arithmetic".toList)
  else if isBooleanLogic l then
    (ProblemType.BOOLEAN_LOGIC, 9/10, "z3".toList,
      "Detected boolean/propositional logic".toList)
  else
    (ProblemType.UNKNOWN, 1/2, "z3".toList,
      "Unknown problem type, recommend general solver".toList)

/-- ProblemAnalyzer.analyze (ai_layer/analyzer.py). -/
def analyze (l : List Char) : AnalysisResult :=
  let cls := classifyProblem l
  { problem_type := cls.1
    confidence := cls.2.1
    complexity_score := calculateComplexity l
    recommended_solver := some cls.2.2.1
    suggested_transformations := suggestTransformations l cls.1
    reasoning := cls.2.2.2 }

/-! ## Plugin procedures (plugins/presburger.py, plugins/diophantine.py) -/

/-- PresburgerProcedure.can_handle: a type hint of PRESBURGER short-circuits
every content check; otherwise require arithmetic/comparison characters, a
single-letter variable, and neither variable multiplication nor a power
operator. -/
def presburgerCanHandle (problem : List Char) (hint : Option ProblemType) : Bool :=
  if hint = some ProblemType.PRESBURGER then true
  else
    let has_arithmetic :=
      problem.any fun c => c = '+' || c = '-' || c = '=' || c = '<' || c = '>'
    let lower := pyLower problem
    has_arithmetic && hasSingleVar lower && !hasVarMult lower && !hasPowerOp lower

/-- PresburgerProcedure.decide: recognize a leading variable-equals-integer
pattern of the stripped problem (re.match is a prefix match) and return SAT
with the one-variable model; otherwise UNKNOWN. -/
def presburgerDecide (problem : List Char) (timeout_ms : Nat) : SolverResult :=
  match matchVarEq (pyStrip problem) with
  | some vn =>
      { satisfiable := some true
        model := some [(vn.1, (vn.2 : Int))]
        explanation := some ("Found solution: ".toList ++ vn.1 ++ " = ".toList ++
          natToDec vn.2)
        solver_name := "presburger".toList }
  | none =>
      { satisfiable := none
        explanation := some "Problem requires full Presburger solver (not implemented)".toList
        solver_name := "presburger".toList
        metadata := [("reason".toList, MetaVal.s "simplified_implementation".toList)] }

/-- The Presburger procedure record (name, capability, decide, priority 10). -/
def presburgerProcedure : Procedure :=
  { name := "presburger".toList
    can_handle := presburgerCanHandle
    decide := presburgerDecide
    get_priority := 10 }

/-- DiophantineProcedure.can_handle: a type hint of DIOPHANTINE
short-circuits the content checks; otherwise require the power heuristic
(caret-2, double star, x-star-x or y-star-y) and an equals sign. -/
def diophantineCanHandle (problem : List Char) (hint : Option ProblemType) : Bool :=
  if hint = some ProblemType.DIOPHANTINE then true
  else
    let has_power :=
      containsSub "^2".toList problem || containsSub "**".toList problem ||
      containsSub "x*x".toList problem || containsSub "y*y".toList problem
    has_power && containsSub ['='] problem

/-- DiophantineProcedure.decide: recognize the linear pattern
a x + b y = c (nonnegative decimal literals) of the stripped problem and
answer by the gcd divisibility test; gcd 0 0 = 0 makes the modulo raise a
ZeroDivisionError in the source, caught and reported as UNKNOWN; any
non-matching shape is UNKNOWN. -/
def diophantineDecide (problem : List Char) (timeout_ms : Nat) : SolverResult :=
  match matchLinear (pyStrip problem) with
  | some m =>
      let a := m.1
      let xv := m.2.1
      let b := m.2.2.1
      let yv := m.2.2.2.1
      let c := m.2.2.2.2
      let g := Nat.gcd a b
      if g = 0 then
        { satisfiable := none
          explanation := some ("Error solving equation: integer division or modulo by zero".toList)
          solver_name := "diophantine".toList
          metadata := [("error".toList,
            MetaVal.s "integer division or modulo by zero".toList)] }
      else if c % g = 0 then
        { satisfiable := some true
          explanation := some ("Linear Diophantine ".toList ++ natToDec a ++ "*".toList ++
            xv ++ " + ".toList ++ natToDec b ++ "*".toList ++ yv ++ " = ".toList ++
            natToDec c ++ " has integer solutions".toList)
          solver_name := "diophantine".toList
          metadata := [("type".toList, MetaVal.s "linear_diophantine".toList),
            ("gcd".toList, MetaVal.i (g : Int))] }
      else
        { satisfiable := some false
          explanation := some ("No integer solutions (gcd(".toList ++ natToDec a ++
            ",".toList ++ natToDec b ++ ")=".toList ++ natToDec g ++
            " does not divide ".toList ++ natToDec c ++ ")".toList)
          solver_name := "diophantine".toList }
  | none =>
      { satisfiable := none
        explanation := some "Complex Diophantine equation requires advanced solver".toList
        solver_name := "diophantine".toList
        metadata := [("reason".toList, MetaVal.s "simplified_implementation".toList)] }

/-- The Diophantine procedure record (name, capability, decide, priority 5). -/
def diophantineProcedure : Procedure :=
  { name := "diophantine".toList
    can_handle := diophantineCanHandle
    decide := diophantineDecide
    get_priority := 5 }

/-! ## Procedure registry (core/registry.py) -/

/-- ProcedureRegistry state: the procedure list, kept sorted by descending
priority; the by-name dictionary of the source is determined by it (names
are unique because register refuses duplicates). -/
structure ProcedureRegistry where
  procedures : List Procedure

/-- Stable insertion into a descending-priority list: walk past procedures
of greater or equal priority, mirroring Python's stable list.sort with
reverse=True. -/
def insertByPriority (p : Procedure) : List Procedure → List Procedure
  | [] => [p]
  | q :: qs =>
      if p.get_priority ≤ q.get_priority then q :: insertByPriority p qs
      else p :: q :: qs

/-- Stable sort by descending priority. -/
def sortByPriority (l : List Procedure) : List Procedure :=
  l.foldl (fun acc p => insertByPriority p acc) []

/-- ProcedureRegistry.register: a duplicate name raises ValueError;
otherwise append and re-sort by descending priority. -/
def ProcedureRegistry.register (r : ProcedureRegistry) (p : Procedure) :
    Except (List Char) ProcedureRegistry :=
  if (r.procedures.map Procedure.name).contains p.name then
    .error ("Procedure '".toList ++ p.name ++ "' is already registered".toList)
  else
    .ok { procedures := sortByPriority (r.procedures ++ [p]) }

/-- ProcedureRegistry.unregister: remove the named procedure when present;
silently do nothing when absent (the source raises no error on a missing
name).  The Except result type records that the operation never fails. -/
def ProcedureRegistry.unregister (r : ProcedureRegistry) (name : List Char) :
    Except (List Char) ProcedureRegistry :=
  if (r.procedures.map Procedure.name).contains name then
    .ok { procedures := r.procedures.filter fun p => !(p.name == name) }
  else
    .ok r

/-- ProcedureRegistry.find_capable_procedures: the registered procedures
whose can_handle accepts the problem, in registry (priority) order. -/
def findCapableProcedures (r : ProcedureRegistry) (problem : List Char)
    (hint : Option ProblemType) : List Procedure :=
  r.procedures.filter fun p => p.can_handle problem hint

/-- The synthetic result when no capable procedure exists. -/
def noCapableResult : SolverResult :=
  { satisfiable := none
    explanation := some "No capable decision procedure found for this problem".toList
    solver_name := "registry".toList
    metadata := [("error".toList, MetaVal.s "no_capable_procedure".toList)] }

/-- The synthetic result of the dead or-branch of ProcedureRegistry.solve
(unreachable when at least one capable procedure ran). -/
def allFailedResult : SolverResult :=
  { satisfiable := none
    explanation := some "All procedures returned UNKNOWN or failed".toList
    solver_name := "registry".toList
    metadata := [("error".toList, MetaVal.s "all_failed".toList)] }

/-- The procedure-iteration loop of ProcedureRegistry.solve: return the
first definitive result; remember the last result; stop after the first
attempt when fallback is off. -/
def solveLoop (problem : List Char) (timeout_ms : Nat) (fallback : Bool) :
    List Procedure → Option SolverResult → SolverResult
  | [], last => last.getD allFailedResult
  | p :: ps, last =>
      let result := p.decide problem timeout_ms
      if result.satisfiable.isSome then result
      else if fallback then solveLoop problem timeout_ms fallback ps (some result)
      else result

/-- ProcedureRegistry.solve (core/registry.py). -/
def ProcedureRegistry.solve (r : ProcedureRegistry) (problem : List Char)
    (hint : Option ProblemType) (timeout_ms : Nat) (fallback : Bool) :
    SolverResult :=
  let capable := findCapableProcedures r problem hint
  if capable.isEmpty then noCapableResult
  else solveLoop problem timeout_ms fallback capable none

/-! ## Orchestration engine (engine.py) -/

/-- The engine's construction state: the registry's procedures, whether an
analyzer and a validator were constructed, and the sandbox flag.  The
sandbox wrapper is modelled by its success path (execute_sandboxed returns
the computation's value unchanged when no fault fires). -/
structure ASAFusionEngine where
  procedures : List Procedure
  analyzer : Bool := true
  validator : Option InputValidator := some {}
  enable_sandbox : Bool := true

/-- The engine's response dictionary: present keys are some, absent keys
none. -/
structure EngineResponse where
  success : Bool
  error : Option (List Char) := none
  validation_errors : Option (List (List Char)) := none
  satisfiable : Option (Option Bool) := none
  solver : Option (List Char) := none
  explanation : Option (Option (List Char)) := none
  model : Option (List (List Char × Int)) := none
  ai_analysis : Option AnalysisResult := none
  warnings : Option (List (List Char)) := none
  metadata : Option (List (List Char × MetaVal)) := none

/-- ASAFusionEngine.solve (engine.py): validate, adopt the analyzer's type
as hint when none was given and the classification is not UNKNOWN, run the
registry (inside the sandbox), and assemble the response dictionary. -/
def engineSolve (e : ASAFusionEngine) (problem : List Char)
    (problem_type : Option ProblemType) (timeout_ms : Nat)
    (validate? : Bool) (use_ai : Bool) : EngineResponse :=
  let vres : Option ValidationResult :=
    match e.validator with
    | some v => if validate? then some (validate v problem) else none
    | none => none
  match vres with
  | some vr =>
      if !vr.is_valid then
        { success := false
          error := some "Input validation failed".toList
          validation_errors := some vr.errors
          warnings := some vr.warnings }
      else
        let problem2 :=
          match vr.sanitized_input with
          | some s => if s.isEmpty then problem else s
          | none => problem
        engineSolveCore e problem2 problem_type timeout_ms use_ai (some vr)
  | none => engineSolveCore e problem problem_type timeout_ms use_ai none
where
  /-- Steps 2-4 of ASAFusionEngine.solve, after validation has passed or
  been skipped. -/
  engineSolveCore (e : ASAFusionEngine) (problem : List Char)
      (problem_type : Option ProblemType) (timeout_ms : Nat) (use_ai : Bool)
      (vres : Option ValidationResult) : EngineResponse :=
    let ares : Option AnalysisResult :=
      if use_ai && e.analyzer then some (analyze problem) else none
    let hint :=
      match ares with
      | some ar =>
          if problem_type.isNone && ar.problem_type ≠ ProblemType.UNKNOWN then
            some ar.problem_type
          else problem_type
      | none => problem_type
    let result :=
      ProcedureRegistry.solve { procedures := e.procedures } problem hint
        timeout_ms true
    { success := result.satisfiable.isSome
      satisfiable := some result.satisfiable
      solver := some result.solver_name
      explanation := some result.explanation
      model :=
        match result.model with
        | some m => if m.isEmpty then none else some m
        | none => none
      ai_analysis := ares
      warnings :=
        match vres with
        | some vr => if vr.warnings.isEmpty then none else some vr.warnings
        | none => none
      metadata := some result.metadata }

/-! ## Batch processor (batch_processor.py)

Per-item processing is modelled by an outcome function mapping each item to
its processor's value or the message of the exception it raised (a timeout
becomes such an exception).  asyncio.gather with return_exceptions=True
collects those outcomes in input order, so the result-assembly loops of
process_batch_async and process_batch_concurrent are both modelled by the
same fold over the outcome list. -/

/-- Whether a per-item outcome is a success (the processor returned rather
than raised). -/
def exceptIsOk : Except ε α → Bool
  | .ok _ => true
  | .error _ => false

/-- BatchResult dataclass; duration_seconds is clock-derived and modelled
as 0. -/
@[ext]
structure BatchResult (β : Type) where
  total : Nat
  successful : Nat
  failed : Nat
  results : List (Option β)
  errors : List (Nat × List Char × List Char)
  duration_seconds : Nat := 0

/-- The result-assembly loop shared by both batch entry points: walk the
completed outcomes with their indices, appending either the value or a
null placeholder plus an error record. -/
def batchAssemble (itemDesc : Nat → List Char) :
    Nat → List (Except (List Char) β) → BatchResult β
  | _, [] =>
      { total := 0, successful := 0, failed := 0, results := [], errors := [] }
  | idx, .ok v :: rest =>
      let r := batchAssemble itemDesc (idx + 1) rest
      { total := r.total + 1
        successful := r.successful + 1
        failed := r.failed
        results := some v :: r.results
        errors := r.errors }
  | idx, .error msg :: rest =>
      let r := batchAssemble itemDesc (idx + 1) rest
      { total := r.total + 1
        successful := r.successful
        failed := r.failed + 1
        results := none :: r.results
        errors := (idx, itemDesc idx, msg) :: r.errors }

/-- process_batch_async / process_batch_concurrent: refuse an empty batch
before any work; otherwise process every item and assemble counts, aligned
results and error records. -/
def processBatch (items : List α) (itemDesc : α → List Char)
    (outcome : α → Except (List Char) β) :
    Except (List Char) (BatchResult β) :=
  if items.isEmpty then .error "Cannot process empty batch".toList
  else
    .ok (batchAssemble (fun i => ((items.get? i).map itemDesc).getD []) 0
      (items.map outcome))

/-! ## Fixture procedures

Concrete procedure records used to exercise registry dispatch on concrete
registries, in the spirit of the repository's test suite. -/

/-- Fixture: accepts every problem, always answers UNKNOWN, priority 3. -/
def fixtureUnknownProcedure : Procedure :=
  { name := "fixture_unknown".toList
    can_handle := fun _ _ => true
    decide := fun _ _ =>
      { satisfiable := none, solver_name := "fixture_unknown".toList }
    get_priority := 3 }

/-- Fixture: accepts every problem, always answers SAT, priority 1. -/
def fixtureSatProcedure : Procedure :=
  { name := "fixture_sat".toList
    can_handle := fun _ _ => true
    decide := fun _ _ =>
      { satisfiable := some true, solver_name := "fixture_sat".toList }
    get_priority := 1 }

/-- The text a x + b y = c with decimal literals and no spacing, the input
shape of the linear Diophantine claims (e.g. 3x+6y=9). -/
def dioRender (a b c : Nat) : List Char :=
  natToDec a ++ 'x' :: '+' :: (natToDec b ++ 'y' :: '=' :: natToDec c)

/-! ## Helper lemmas: character classes and decimal rendering -/

theorem takeWhile_append_of_all {p : Char → Bool} {l r : List Char}
    (h : ∀ c ∈ l, p c = true) :
    (l ++ r).takeWhile p = l ++ r.takeWhile p := by
  induction l with
  | nil => simp
  | cons c cs ih =>
    simp only [List.cons_append, List.takeWhile_cons, h c (by simp)]
    simp [ih fun x hx => h x (by simp [hx])]

theorem dropWhile_append_of_all {p : Char → Bool} {l r : List Char}
    (h : ∀ c ∈ l, p c = true) :
    (l ++ r).dropWhile p = r.dropWhile p := by
  induction l with
  | nil => simp
  | cons c cs ih =>
    simp only [List.cons_append, List.dropWhile_cons, h c (by simp)]
    simp [ih fun x hx => h x (by simp [hx])]

theorem natToDecAux_fuel_irrel :
    ∀ (f1 : Nat) (n : Nat), n < f1 → ∀ f2, n < f2 → natToDecAux f1 n = natToDecAux f2 n := by
  intro f1
  induction f1 with
  | zero => intro n h; exact absurd h (by omega)
  | succ f ih =>
      intro n h f2 h2
      cases f2 with
      | zero => exact absurd h2 (by omega)
      | succ g =>
          unfold natToDecAux
          by_cases hn : n < 10
          · simp [hn]
          · simp only [hn, if_false]
            have hdiv : n / 10 < n := Nat.div_lt_self (by omega) (by omega)
            rw [ih (n / 10) (by omega) g (by omega)]

theorem natToDec_eq (n : Nat) :
    natToDec n = if n < 10 then [Char.ofNat (48 + n)]
      else natToDec (n / 10) ++ [Char.ofNat (48 + n % 10)] := by
  show natToDecAux (n + 1) n = _
  unfold natToDecAux
  by_cases hn : n < 10
  · simp [hn]
  · simp only [hn, if_false]
    have hdiv : n / 10 < n := Nat.div_lt_self (by omega) (by omega)
    rw [natToDecAux_fuel_irrel n (n / 10) (by omega) (n / 10 + 1) (by omega)]
    rfl

theorem natToDec_all_digit (n : Nat) : ∀ c ∈ natToDec n, isDigitCh c = true := by
  induction n using Nat.strong_induction_on with
  | _ n ih =>
    rw [natToDec_eq]
    by_cases h : n < 10
    · simp only [if_pos h, List.mem_singleton]
      rintro c rfl
      interval_cases n <;> decide
    · simp only [if_neg h, List.mem_append, List.mem_singleton]
      rintro c (hc | rfl)
      · exact ih (n / 10) (Nat.div_lt_self (by omega) (by omega)) c hc
      · have h10 : n % 10 < 10 := Nat.mod_lt n (by omega)
        interval_cases h : n % 10 <;> decide

theorem natToDec_ne_nil (n : Nat) : natToDec n ≠ [] := by
  rw [natToDec_eq]
  by_cases h : n < 10 <;> simp [h]

theorem decVal_append_digit (l : List Char) (c : Char) :
    decVal (l ++ [c]) = decVal l * 10 + digitVal c := by
  simp [decVal, List.foldl_append]

theorem decVal_natToDec (n : Nat) : decVal (natToDec n) = n := by
  induction n using Nat.strong_induction_on with
  | _ n ih =>
    rw [natToDec_eq]
    by_cases h : n < 10
    · simp only [if_pos h]
      show decVal ([] ++ [Char.ofNat (48 + n)]) = n
      rw [decVal_append_digit]
      have : decVal [] = 0 := rfl
      rw [this]
      interval_cases n <;> decide
    · simp only [if_neg h]
      rw [decVal_append_digit, ih (n / 10) (Nat.div_lt_self (by omega) (by omega))]
      have h10 : n % 10 < 10 := Nat.mod_lt n (by omega)
      have hv : digitVal (Char.ofNat (48 + n % 10)) = n % 10 := by
        interval_cases h : n % 10 <;> decide
      omega

theorem space_cases {c : Char} (h : isSpaceCh c = true) :
    c = ' ' ∨ c = '\t' ∨ c = '\n' ∨ c = '\r' ∨ c = '\x0b' ∨ c = '\x0c' := by
  simp only [isSpaceCh, Bool.or_eq_true, beq_iff_eq] at h
  tauto

theorem digit_not_space {c : Char} (h : isDigitCh c = true) : isSpaceCh c = false := by
  cases hsp : isSpaceCh c with
  | false => rfl
  | true =>
      rcases space_cases hsp with rfl | rfl | rfl | rfl | rfl | rfl <;>
        (revert h; decide)

theorem word_not_space {c : Char} (h : isWordCh c = true) : isSpaceCh c = false := by
  cases hsp : isSpaceCh c with
  | false => rfl
  | true =>
      rcases space_cases hsp with rfl | rfl | rfl | rfl | rfl | rfl <;>
        (revert h; decide)

theorem takeWhile_eq_self_of_all {p : Char → Bool} {l : List Char}
    (h : ∀ c ∈ l, p c = true) : l.takeWhile p = l := by
  induction l with
  | nil => rfl
  | cons c cs ih =>
    simp only [List.takeWhile_cons, h c (by simp)]
    simp [ih fun x hx => h x (by simp [hx])]

theorem takeWhile_eq_nil_of_all {p : Char → Bool} {l : List Char}
    (h : ∀ c ∈ l, p c = false) : l.takeWhile p = [] := by
  cases l with
  | nil => rfl
  | cons c cs => simp [List.takeWhile_cons, h c (by simp)]

theorem dropWhile_eq_self_of_all {p : Char → Bool} {l : List Char}
    (h : ∀ c ∈ l, p c = false) : l.dropWhile p = l := by
  cases l with
  | nil => rfl
  | cons c cs => simp [List.dropWhile_cons, h c (by simp)]

/-! ## Helper lemmas: the backtracking candidate lists -/

theorem findSome?_cons_of_some {f : α → Option β} {x : α} {v : β}
    (xs : List α) (h : f x = some v) : (x :: xs).findSome? f = some v := by
  simp [List.findSome?, h]

theorem findSome?_plusSplits {p : Char → Bool} {l w r : List Char}
    {f : List Char × List Char → Option β} {v : β}
    (hw : l.takeWhile p = w) (hr : l.dropWhile p = r) (hne : w ≠ [])
    (hf : f (w, r) = some v) :
    (plusSplits p l).findSome? f = some v := by
  unfold plusSplits
  rw [hw, hr]
  show (List.findSome? f
    ((List.range w.length).map fun i => (w.take (w.length - i), w.drop (w.length - i) ++ r)))
    = some v
  obtain ⟨k, hk⟩ : ∃ k, w.length = k + 1 := by
    cases h : w.length with
    | zero => exact absurd (List.length_eq_zero.mp h) hne
    | succ k => exact ⟨k, rfl⟩
  rw [hk, List.range_succ_eq_map, List.map_cons]
  refine findSome?_cons_of_some _ ?_
  have h1 : w.take (k + 1 - 0) = w := by
    rw [Nat.sub_zero, ← hk]
    exact List.take_length _
  have h2 : w.drop (k + 1 - 0) = [] := by
    rw [Nat.sub_zero, ← hk]
    exact List.drop_length _
  rw [h1, h2, List.nil_append]
  exact hf

theorem findSome?_starSplits {p : Char → Bool} {l w r : List Char}
    {f : List Char × List Char → Option β} {v : β}
    (hw : l.takeWhile p = w) (hr : l.dropWhile p = r)
    (hf : f (w, r) = some v) :
    (starSplits p l).findSome? f = some v := by
  unfold starSplits
  by_cases hne : w = []
  · subst hne
    have hl : l.dropWhile p = l := by
      cases l with
      | nil => rfl
      | cons c t =>
        rw [List.takeWhile_cons] at hw
        by_cases hp : p c
        · simp [hp] at hw
        · simp [List.dropWhile_cons, hp]
    rw [hl] at hr
    subst hr
    unfold plusSplits
    rw [hw]
    simp only [List.length_nil, List.range_zero, List.map_nil, List.nil_append]
    simp [List.findSome?, hf]
  · rw [List.findSome?_append, findSome?_plusSplits hw hr hne hf]
    simp

theorem findSome?_optSplits_ne {c d : Char} {t : List Char}
    {f : List Char × List Char → Option β} {v : β}
    (hne : d ≠ c) (hf : f ([], d :: t) = some v) :
    (optSplits c (d :: t)).findSome? f = some v := by
  simp only [optSplits, if_neg hne]
  exact findSome?_cons_of_some _ hf

/-! ## Helper lemmas: parsing rendered inputs -/

theorem takeWhile_natToDec (n : Nat) (r : List Char)
    (hr : r.takeWhile isDigitCh = []) :
    (natToDec n ++ r).takeWhile isDigitCh = natToDec n := by
  rw [takeWhile_append_of_all (natToDec_all_digit n), hr, List.append_nil]

theorem dropWhile_natToDec (n : Nat) (r : List Char)
    (hr : r.dropWhile isDigitCh = r) :
    (natToDec n ++ r).dropWhile isDigitCh = r := by
  rw [dropWhile_append_of_all (natToDec_all_digit n), hr]

theorem takeWhile_nil_of_head {p : Char → Bool} {c : Char} (t : List Char)
    (h : p c = false) : (c :: t).takeWhile p = [] := by
  simp [List.takeWhile_cons, h]

theorem dropWhile_self_of_head {p : Char → Bool} {c : Char} (t : List Char)
    (h : p c = false) : (c :: t).dropWhile p = c :: t := by
  simp [List.dropWhile_cons, h]

theorem natToDec_no_space (n : Nat) : ∀ c ∈ natToDec n, isSpaceCh c = false :=
  fun c hc => digit_not_space (natToDec_all_digit n c hc)

theorem natToDec_isEmpty (n : Nat) : (natToDec n).isEmpty = false := by
  cases h : natToDec n with
  | nil => exact absurd h (natToDec_ne_nil n)
  | cons d t => rfl

theorem matchLinTail_render (b c : Nat) :
    matchLinTail (natToDec b ++ 'y' :: '=' :: natToDec c) =
      some (b, ['y'], c) := by
  unfold matchLinTail
  refine findSome?_plusSplits (takeWhile_natToDec b _ (takeWhile_nil_of_head _ (by decide)))
    (dropWhile_natToDec b _ (dropWhile_self_of_head _ (by decide)))
    (natToDec_ne_nil b) ?_
  refine findSome?_starSplits (takeWhile_nil_of_head _ (by decide))
    (dropWhile_self_of_head _ (by decide)) ?_
  refine findSome?_optSplits_ne (by decide) ?_
  refine findSome?_starSplits (takeWhile_nil_of_head _ (by decide))
    (dropWhile_self_of_head _ (by decide)) ?_
  refine findSome?_plusSplits (l := 'y' :: '=' :: natToDec c) (w := ['y'])
    (r := '=' :: natToDec c) ?_ ?_ (by simp) ?_
  · rw [List.takeWhile_cons]
    simp [takeWhile_nil_of_head _ (show isWordCh '=' = false by decide),
      show isWordCh 'y' = true by decide]
  · simp [List.dropWhile_cons, dropWhile_self_of_head _ (show isWordCh '=' = false by decide),
      show isWordCh 'y' = true by decide]
  · refine findSome?_starSplits (takeWhile_nil_of_head _ (by decide))
      (dropWhile_self_of_head _ (by decide)) ?_
    show ((starSplits isSpaceCh (natToDec c)).findSome? fun s4 =>
      let d := s4.2.takeWhile isDigitCh
      if d.isEmpty then none
      else some (decVal (natToDec b), ['y'], decVal d)) = some (b, ['y'], c)
    refine findSome?_starSplits (takeWhile_eq_nil_of_all (natToDec_no_space c))
      (dropWhile_eq_self_of_all (natToDec_no_space c)) ?_
    show (let d := (natToDec c).takeWhile isDigitCh
      if d.isEmpty then none
      else some (decVal (natToDec b), ['y'], decVal d)) = some (b, ['y'], c)
    rw [takeWhile_eq_self_of_all (natToDec_all_digit c)]
    simp [natToDec_isEmpty c, decVal_natToDec]

theorem matchLinear_render (a b c : Nat) :
    matchLinear (natToDec a ++ 'x' :: '+' :: (natToDec b ++ 'y' :: '=' :: natToDec c)) =
      some (a, ['x'], b, ['y'], c) := by
  unfold matchLinear
  refine findSome?_plusSplits (takeWhile_natToDec a _ (takeWhile_nil_of_head _ (by decide)))
    (dropWhile_natToDec a _ (dropWhile_self_of_head _ (by decide)))
    (natToDec_ne_nil a) ?_
  refine findSome?_starSplits (takeWhile_nil_of_head _ (by decide))
    (dropWhile_self_of_head _ (by decide)) ?_
  refine findSome?_optSplits_ne (by decide) ?_
  refine findSome?_starSplits (takeWhile_nil_of_head _ (by decide))
    (dropWhile_self_of_head _ (by decide)) ?_
  refine findSome?_plusSplits (w := ['x'])
    (r := '+' :: (natToDec b ++ 'y' :: '=' :: natToDec c)) ?_ ?_ (by simp) ?_
  · rw [List.takeWhile_cons]
    simp [takeWhile_nil_of_head _ (show isWordCh '+' = false by decide),
      show isWordCh 'x' = true by decide]
  · simp [List.dropWhile_cons, dropWhile_self_of_head _ (show isWordCh '+' = false by decide),
      show isWordCh 'x' = true by decide]
  · refine findSome?_starSplits (takeWhile_nil_of_head _ (by decide))
      (dropWhile_self_of_head _ (by decide)) ?_
    show ((starSplits isSpaceCh (natToDec b ++ 'y' :: '=' :: natToDec c)).findSome? fun s4 =>
        (matchLinTail s4.2).map fun bc => (decVal (natToDec a), ['x'], bc.1, bc.2.1, bc.2.2))
      = some (a, ['x'], b, ['y'], c)
    have hnsp : ∀ x ∈ natToDec b ++ 'y' :: '=' :: natToDec c, isSpaceCh x = false := by
      intro x hx
      rcases List.mem_append.mp hx with h | h
      · exact natToDec_no_space b x h
      · rcases h with _ | ⟨_, h⟩
        · decide
        · rcases h with _ | ⟨_, h⟩
          · decide
          · exact natToDec_no_space c x h
    refine findSome?_starSplits (takeWhile_eq_nil_of_all hnsp)
      (dropWhile_eq_self_of_all hnsp) ?_
    show (Option.map (fun bc => (decVal (natToDec a), ['x'], bc.1, bc.2.1, bc.2.2))
      (matchLinTail (natToDec b ++ 'y' :: '=' :: natToDec c))) = some (a, ['x'], b, ['y'], c)
    rw [matchLinTail_render, decVal_natToDec]
    rfl

theorem matchVarEq_render (v : List Char) (n : Nat) (hne : v ≠ [])
    (hword : ∀ c ∈ v, isWordCh c = true) :
    matchVarEq (v ++ ' ' :: '=' :: ' ' :: natToDec n) = some (v, n) := by
  unfold matchVarEq
  refine findSome?_plusSplits
    (by rw [takeWhile_append_of_all hword,
      takeWhile_nil_of_head _ (show isWordCh ' ' = false by decide), List.append_nil])
    (by rw [dropWhile_append_of_all hword,
      dropWhile_self_of_head _ (show isWordCh ' ' = false by decide)])
    hne ?_
  refine findSome?_starSplits (w := [' ']) (r := '=' :: ' ' :: natToDec n) ?_ ?_ ?_
  · rw [List.takeWhile_cons]
    simp [takeWhile_nil_of_head _ (show isSpaceCh '=' = false by decide),
      show isSpaceCh ' ' = true by decide]
  · simp [List.dropWhile_cons, dropWhile_self_of_head _ (show isSpaceCh '=' = false by decide),
      show isSpaceCh ' ' = true by decide]
  · show ((starSplits isSpaceCh (' ' :: natToDec n)).findSome? fun s2 =>
      let d := s2.2.takeWhile isDigitCh
      if d.isEmpty then none else some (v, decVal d)) = some (v, n)
    refine findSome?_starSplits (w := [' ']) (r := natToDec n) ?_ ?_ ?_
    · rw [List.takeWhile_cons]
      simp [takeWhile_eq_nil_of_all (natToDec_no_space n),
        show isSpaceCh ' ' = true by decide]
    · simp [List.dropWhile_cons, dropWhile_eq_self_of_all (natToDec_no_space n),
        show isSpaceCh ' ' = true by decide]
    · show (let d := (natToDec n).takeWhile isDigitCh
        if d.isEmpty then none else some (v, decVal d)) = some (v, n)
      rw [takeWhile_eq_self_of_all (natToDec_all_digit n)]
      simp [natToDec_isEmpty n, decVal_natToDec]

/-! ## Helper lemmas: pyStrip -/

theorem pyStrip_eq_self {l : List Char}
    (h1 : ∀ c, l.head? = some c → isSpaceCh c = false)
    (h2 : ∀ c, l.getLast? = some c → isSpaceCh c = false) :
    pyStrip l = l := by
  unfold pyStrip
  have hd : l.dropWhile isSpaceCh = l := by
    cases l with
    | nil => rfl
    | cons c t => exact dropWhile_self_of_head t (h1 c rfl)
  rw [hd]
  have hrev : l.reverse.dropWhile isSpaceCh = l.reverse := by
    cases hr : l.reverse with
    | nil => rfl
    | cons c t =>
        refine dropWhile_self_of_head t (h2 c ?_)
        rw [← List.head?_reverse, hr]
        rfl
  rw [hrev, List.reverse_reverse]

theorem head?_append_of_ne_nil {l r : List Char} (h : l ≠ []) :
    (l ++ r).head? = l.head? := by
  cases l with
  | nil => exact absurd rfl h
  | cons c t => rfl

theorem getLast?_append_of_ne_nil (l : List Char) {r : List Char} (h : r ≠ []) :
    (l ++ r).getLast? = r.getLast? := by
  rw [← List.head?_reverse, ← List.head?_reverse, List.reverse_append]
  exact head?_append_of_ne_nil (by simpa using h)

theorem natToDec_head_digit (n : Nat) :
    ∀ c, (natToDec n).head? = some c → isDigitCh c = true := by
  intro c hc
  cases h : natToDec n with
  | nil => exact absurd h (natToDec_ne_nil n)
  | cons d t =>
      rw [h] at hc
      exact (Option.some_inj.mp hc) ▸ natToDec_all_digit n d (h ▸ List.mem_cons_self d t)

theorem natToDec_getLast_digit (n : Nat) :
    ∀ c, (natToDec n).getLast? = some c → isDigitCh c = true := by
  intro c hc
  rw [← List.head?_reverse] at hc
  have hmem : c ∈ (natToDec n).reverse := by
    cases h : (natToDec n).reverse with
    | nil => rw [h] at hc; exact absurd hc (by simp)
    | cons d t =>
        rw [h] at hc
        simp only [List.head?_cons, Option.some_inj] at hc
        exact hc ▸ List.mem_cons_self d t
  exact natToDec_all_digit n c (List.mem_reverse.mp hmem)

/-! ## Helper lemmas: the registry solve loop -/

theorem solveLoop_no_fallback (problem : List Char) (t : Nat) (p : Procedure)
    (ps : List Procedure) (last : Option SolverResult) :
    solveLoop problem t false (p :: ps) last = p.decide problem t := by
  unfold solveLoop
  by_cases h : (p.decide problem t).satisfiable.isSome <;> simp [h]

theorem solveLoop_all_unknown (problem : List Char) (t : Nat) :
    ∀ (ps : List Procedure) (hne : ps ≠ [])
      (_ : ∀ p ∈ ps, (p.decide problem t).satisfiable = none)
      (last : Option SolverResult),
    solveLoop problem t true ps last = (ps.getLast hne).decide problem t := by
  intro ps
  induction ps with
  | nil => intro hne; exact absurd rfl hne
  | cons p ps ih =>
    intro hne h last
    unfold solveLoop
    have hp : (p.decide problem t).satisfiable = none := h p (by simp)
    simp only [hp, Option.isSome_none, Bool.false_eq_true, if_false, if_true]
    cases ps with
    | nil => simp [solveLoop, List.getLast]
    | cons q qs =>
        rw [ih (by simp) (fun x hx => h x (by simp [hx])) (some (p.decide problem t))]
        congr 1

theorem solveLoop_first_definitive (problem : List Char) (t : Nat) :
    ∀ (ps : List Procedure) (i : Nat) (h : i < ps.length)
      (_ : ∀ j (hj : j < i), ((ps.get ⟨j, Nat.lt_trans hj h⟩).decide problem t).satisfiable = none)
      (_ : ((ps.get ⟨i, h⟩).decide problem t).satisfiable.isSome = true)
      (last : Option SolverResult),
    solveLoop problem t true ps last = (ps.get ⟨i, h⟩).decide problem t := by
  intro ps
  induction ps with
  | nil => intro i h; exact absurd h (by simp)
  | cons p ps ih =>
    intro i h hnone hdef last
    cases i with
    | zero =>
        unfold solveLoop
        rw [show ((p :: ps).get ⟨0, h⟩) = p from rfl] at hdef ⊢
        simp only [hdef, if_true]
    | succ i =>
        unfold solveLoop
        have hp : (p.decide problem t).satisfiable = none := by
          have := hnone 0 (Nat.succ_pos i)
          exact this
        simp only [hp, Option.isSome_none, Bool.false_eq_true, if_false, if_true]
        have hlen : i < ps.length := Nat.lt_of_succ_lt_succ h
        rw [show ((p :: ps).get ⟨i + 1, h⟩) = ps.get ⟨i, hlen⟩ from rfl] at hdef ⊢
        exact ih i hlen
          (fun j hj => hnone (j + 1) (Nat.succ_lt_succ hj))
          hdef (some (p.decide problem t))

/-! ## Claim theorems -/

/-- C1: Registry.solve returns, for every registered procedure set, problem
and hint: the synthetic unknown result with metadata error
no_capable_procedure when no procedure is capable; otherwise, with fallback,
the decide result of the first capable procedure (in the registry's
descending-priority order, which find_capable_procedures preserves) whose
result is definitive; the last obtained result when every attempt returns
unknown; and with fallback off, the first capable procedure's result
regardless of outcome. -/
theorem claim_C1_registry_solve (r : ProcedureRegistry) (problem : List Char)
    (hint : Option ProblemType) (t : Nat) :
    (findCapableProcedures r problem hint = [] →
      ∀ fb, r.solve problem hint t fb = noCapableResult) ∧
    (noCapableResult.satisfiable = none ∧
      noCapableResult.metadata =
        [("error".toList, MetaVal.s "no_capable_procedure".toList)]) ∧
    (∀ i (h : i < (findCapableProcedures r problem hint).length),
      (∀ j (hj : j < i),
        (((findCapableProcedures r problem hint).get ⟨j, Nat.lt_trans hj h⟩).decide
          problem t).satisfiable = none) →
      (((findCapableProcedures r problem hint).get ⟨i, h⟩).decide
        problem t).satisfiable.isSome = true →
      r.solve problem hint t true =
        ((findCapableProcedures r problem hint).get ⟨i, h⟩).decide problem t) ∧
    (∀ (hne : findCapableProcedures r problem hint ≠ []),
      (∀ p ∈ findCapableProcedures r problem hint,
        (p.decide problem t).satisfiable = none) →
      r.solve problem hint t true =
        ((findCapableProcedures r problem hint).getLast hne).decide problem t) ∧
    (∀ (hne : findCapableProcedures r problem hint ≠ []),
      r.solve problem hint t false =
        ((findCapableProcedures r problem hint).head hne).decide problem t) ∧
    (r.procedures.Pairwise (fun p q => q.get_priority ≤ p.get_priority) →
      (findCapableProcedures r problem hint).Pairwise
        (fun p q => q.get_priority ≤ p.get_priority)) := by
  refine ⟨?_, ⟨rfl, rfl⟩, ?_, ?_, ?_, ?_⟩
  · intro hcap fb
    unfold ProcedureRegistry.solve
    rw [hcap]
    rfl
  · intro i h hnone hdef
    unfold ProcedureRegistry.solve
    have hne : (findCapableProcedures r problem hint).isEmpty = false := by
      cases hc : findCapableProcedures r problem hint with
      | nil => rw [hc] at h; exact absurd h (by simp)
      | cons a l => rfl
    simp only [hne, Bool.false_eq_true, if_false]
    exact solveLoop_first_definitive problem t _ i h hnone hdef none
  · intro hne hall
    unfold ProcedureRegistry.solve
    have hemp : (findCapableProcedures r problem hint).isEmpty = false := by
      cases hc : findCapableProcedures r problem hint with
      | nil => exact absurd hc hne
      | cons a l => rfl
    simp only [hemp, Bool.false_eq_true, if_false]
    exact solveLoop_all_unknown problem t _ hne hall none
  · intro hne
    obtain ⟨p, ps, hc⟩ := List.exists_cons_of_ne_nil hne
    unfold ProcedureRegistry.solve
    simp only [hc, List.isEmpty_cons, Bool.false_eq_true, if_false,
      solveLoop_no_fallback, List.head_cons]
  · intro hsorted
    exact hsorted.sublist (List.filter_sublist _)

/-- C1 witness: a registry of two always-capable fixtures, the higher-priority
one answering unknown and the lower one SAT: solve returns the SAT result of
the second capable procedure (the first definitive one). -/
theorem claim_C1_registry_solve_witness :
    ProcedureRegistry.solve ⟨[fixtureUnknownProcedure, fixtureSatProcedure]⟩
      ("q".toList) none 5000 true =
      fixtureSatProcedure.decide ("q".toList) 5000 := by
  have h := (claim_C1_registry_solve ⟨[fixtureUnknownProcedure, fixtureSatProcedure]⟩
    ("q".toList) none 5000).2.2.1 1 (by decide)
    (fun j hj => by
      interval_cases j
      rfl)
    rfl
  exact h

/-- C7 (amended): register fails with a naming-conflict error when the name
is already present; unregister of an unregistered name is a silent no-op
returning the registry unchanged (the source raises no not-found error);
in both cases the registered procedure set is unchanged. -/
theorem claim_C7_register_unregister (r : ProcedureRegistry) (p : Procedure)
    (nm : List Char) :
    ((r.procedures.map Procedure.name).contains p.name = true →
      r.register p = Except.error
        ("Procedure '".toList ++ p.name ++ "' is already registered".toList)) ∧
    ((r.procedures.map Procedure.name).contains nm = false →
      r.unregister nm = Except.ok r) := by
  constructor
  · intro h
    unfold ProcedureRegistry.register
    rw [h]
    rfl
  · intro h
    unfold ProcedureRegistry.unregister
    rw [h]
    rfl

/-- C7 counterexample: unregistering a name absent from the registry does
not fail: it returns the unchanged registry, not an error. -/
theorem claim_C7_counterexample :
    ProcedureRegistry.unregister ⟨[]⟩ ("missing".toList) = Except.ok ⟨[]⟩ := rfl

/-- C7 witness: a registry holding the Presburger procedure refuses to
register it again, and silently ignores unregistering the absent
Diophantine name. -/
theorem claim_C7_register_unregister_witness :
    ProcedureRegistry.register ⟨[presburgerProcedure]⟩ presburgerProcedure =
      Except.error ("Procedure '".toList ++ "presburger".toList ++
        "' is already registered".toList) ∧
    ProcedureRegistry.unregister ⟨[presburgerProcedure]⟩ ("diophantine".toList) =
      Except.ok ⟨[presburgerProcedure]⟩ := by
  constructor
  · exact (claim_C7_register_unregister ⟨[presburgerProcedure]⟩
      presburgerProcedure ("diophantine".toList)).1 (by rfl)
  · exact (claim_C7_register_unregister ⟨[presburgerProcedure]⟩
      presburgerProcedure ("diophantine".toList)).2 (by rfl)

/-- C10: a type hint matching a procedure's theory short-circuits every
content check: for every problem string, the Presburger procedure's
can_handle is true under a PRESBURGER hint and the Diophantine procedure's
can_handle is true under a DIOPHANTINE hint. -/
theorem claim_C10_hint_short_circuit (s : List Char) :
    presburgerCanHandle s (some ProblemType.PRESBURGER) = true ∧
    diophantineCanHandle s (some ProblemType.DIOPHANTINE) = true := by
  constructor
  · unfold presburgerCanHandle
    rw [if_pos rfl]
  · unfold diophantineCanHandle
    rw [if_pos rfl]

/-! ## Helper lemmas: split and join (sanitization) -/

theorem pySplitAux_sound (m : List Char) :
    ∀ (cur : List Char), (∀ c ∈ cur, isSpaceCh c = false) →
    ∀ w ∈ pySplitAux m cur,
      w ≠ [] ∧ ∀ c ∈ w, isSpaceCh c = false ∧ (c ∈ cur ∨ c ∈ m) := by
  induction m with
  | nil =>
      intro cur hcur w hw
      unfold pySplitAux at hw
      by_cases hc : cur.isEmpty
      · simp [hc] at hw
      · simp only [hc, Bool.false_eq_true, if_false, List.mem_singleton] at hw
        subst hw
        refine ⟨by simpa [List.isEmpty_iff] using hc, ?_⟩
        intro c hcmem
        have hcc : c ∈ cur := List.mem_reverse.mp hcmem
        exact ⟨hcur c hcc, Or.inl hcc⟩
  | cons c cs ih =>
      intro cur hcur w hw
      unfold pySplitAux at hw
      by_cases hsp : isSpaceCh c
      · simp only [hsp, if_true] at hw
        by_cases hc : cur.isEmpty
        · simp only [hc, if_true] at hw
          have := ih [] (by simp) w hw
          exact ⟨this.1, fun d hd =>
            ⟨(this.2 d hd).1, Or.elim (this.2 d hd).2 (by simp) fun h => Or.inr (by simp [h])⟩⟩
        · simp only [hc, Bool.false_eq_true, if_false, List.mem_cons] at hw
          rcases hw with rfl | hw
          · refine ⟨by simpa [List.isEmpty_iff] using hc, ?_⟩
            intro d hd
            have hdc : d ∈ cur := List.mem_reverse.mp hd
            exact ⟨hcur d hdc, Or.inl hdc⟩
          · have := ih [] (by simp) w hw
            exact ⟨this.1, fun d hd =>
              ⟨(this.2 d hd).1, Or.elim (this.2 d hd).2 (by simp) fun h => Or.inr (by simp [h])⟩⟩
      · simp only [hsp, Bool.false_eq_true, if_false] at hw
        have := ih (c :: cur)
          (by
            intro d hd
            rcases List.mem_cons.mp hd with rfl | hd
            · exact Bool.not_eq_true _ ▸ (by simpa using hsp)
            · exact hcur d hd) w hw
        refine ⟨this.1, fun d hd => ⟨(this.2 d hd).1, ?_⟩⟩
        rcases (this.2 d hd).2 with hdc | hdm
        · rcases List.mem_cons.mp hdc with rfl | hdc
          · exact Or.inr (by simp)
          · exact Or.inl hdc
        · exact Or.inr (by simp [hdm])

theorem pySplit_sound (m : List Char) :
    ∀ w ∈ pySplit m, w ≠ [] ∧ ∀ c ∈ w, isSpaceCh c = false ∧ c ∈ m := by
  intro w hw
  have := pySplitAux_sound m [] (by simp) w hw
  exact ⟨this.1, fun c hc =>
    ⟨(this.2 c hc).1, Or.elim (this.2 c hc).2 (by simp) id⟩⟩

theorem pySplitAux_word (w rest cur : List Char)
    (hw : ∀ c ∈ w, isSpaceCh c = false) :
    pySplitAux (w ++ rest) cur = pySplitAux rest (w.reverse ++ cur) := by
  induction w generalizing cur with
  | nil => simp
  | cons c w2 ih =>
      have hc : isSpaceCh c = false := hw c (by simp)
      have step : pySplitAux ((c :: w2) ++ rest) cur = pySplitAux (w2 ++ rest) (c :: cur) := by
        show pySplitAux (c :: (w2 ++ rest)) cur = _
        conv_lhs => unfold pySplitAux
        simp [hc]
      rw [step, ih (c :: cur) (fun d hd => hw d (by simp [hd]))]
      congr 1
      simp

theorem pySplitAux_space_cons (rest cur : List Char) (hcur : cur ≠ []) :
    pySplitAux (' ' :: rest) cur = cur.reverse :: pySplitAux rest [] := by
  cases cur with
  | nil => exact absurd rfl hcur
  | cons c cs => rfl

theorem pySplit_join (ws : List (List Char))
    (h : ∀ w ∈ ws, w ≠ [] ∧ ∀ c ∈ w, isSpaceCh c = false) :
    pySplit (joinWords ws) = ws := by
  induction ws with
  | nil => rfl
  | cons w ws ih =>
      cases ws with
      | nil =>
          show pySplit (joinWords [w]) = [w]
          unfold joinWords pySplit
          rw [show w = w ++ [] from (List.append_nil w).symm]
          rw [pySplitAux_word _ [] [] (h w (by simp)).2]
          unfold pySplitAux
          have hne : w ≠ [] := (h w (by simp)).1
          simp [List.isEmpty_iff, hne]
      | cons w2 ws2 =>
          show pySplit (w ++ ' ' :: joinWords (w2 :: ws2)) = w :: w2 :: ws2
          unfold pySplit
          rw [pySplitAux_word _ _ [] (h w (by simp)).2]
          rw [List.append_nil]
          rw [pySplitAux_space_cons _ _ (by simpa using (h w (by simp)).1)]
          rw [List.reverse_reverse]
          have := ih (fun x hx => h x (by simp [hx]))
          unfold pySplit at this
          rw [this]

theorem mem_joinWords {c : Char} :
    ∀ {ws : List (List Char)}, c ∈ joinWords ws → (∃ w ∈ ws, c ∈ w) ∨ c = ' ' := by
  intro ws
  induction ws with
  | nil => intro h; simp [joinWords] at h
  | cons w ws ih =>
      cases ws with
      | nil =>
          intro h
          exact Or.inl ⟨w, by simp, h⟩
      | cons w2 ws2 =>
          intro h
          rcases List.mem_append.mp h with h | h
          · exact Or.inl ⟨w, by simp, h⟩
          · rcases List.mem_cons.mp h with rfl | h
            · exact Or.inr rfl
            · rcases ih h with ⟨x, hx, hcx⟩ | h
              · exact Or.inl ⟨x, by simp [List.mem_cons.mp hx], hcx⟩
              · exact Or.inr h

theorem sanitize_chars (l : List Char) : ∀ c ∈ sanitize l, keepCh c = true := by
  intro c hc
  unfold sanitize at hc
  rcases mem_joinWords hc with ⟨w, hw, hcw⟩ | rfl
  · have := (pySplit_sound _ w hw).2 c hcw
    exact (List.mem_filter.mp this.2).2
  · rfl

/-- C9: the validator's sanitization is idempotent: sanitizing
already-sanitized text returns it unchanged. -/
theorem claim_C9_sanitize_idempotent (l : List Char) :
    sanitize (sanitize l) = sanitize l := by
  have hfilter : (sanitize l).filter keepCh = sanitize l :=
    List.filter_eq_self.mpr (sanitize_chars l)
  show joinWords (pySplit ((sanitize l).filter keepCh)) = sanitize l
  rw [hfilter]
  show joinWords (pySplit (joinWords (pySplit (l.filter keepCh)))) = sanitize l
  rw [pySplit_join _ (fun w hw =>
    ⟨(pySplit_sound _ w hw).1, fun c hc => ((pySplit_sound _ w hw).2 c hc).1⟩)]
  rfl

/-! ## Helper lemmas: batch processing -/

theorem length_filter_add_length_filter_not (p : α → Bool) (l : List α) :
    (l.filter p).length + (l.filter fun x => !p x).length = l.length := by
  induction l with
  | nil => rfl
  | cons x xs ih =>
      by_cases h : p x <;> simp [List.filter_cons, h] <;> omega

theorem batchAssemble_spec (d : Nat → List Char)
    (outs : List (Except (List Char) β)) :
    ∀ idx : Nat,
      (batchAssemble d idx outs).total = outs.length ∧
      (batchAssemble d idx outs).successful = (outs.filter exceptIsOk).length ∧
      (batchAssemble d idx outs).failed =
        (outs.filter fun o => !exceptIsOk o).length ∧
      (batchAssemble d idx outs).results =
        outs.map (fun o => match o with | .ok v => some v | .error _ => none) ∧
      (batchAssemble d idx outs).errors =
        (outs.enumFrom idx).filterMap (fun q =>
          match q.2 with
          | .error msg => some (q.1, d q.1, msg)
          | .ok _ => none) ∧
      (batchAssemble d idx outs).duration_seconds = 0 := by
  induction outs with
  | nil => intro idx; exact ⟨rfl, rfl, rfl, rfl, rfl, rfl⟩
  | cons o rest ih =>
      intro idx
      obtain ⟨h1, h2, h3, h4, h5, h6⟩ := ih (idx + 1)
      cases o with
      | ok v =>
          refine ⟨?_, ?_, ?_, ?_, ?_, ?_⟩ <;>
            simp [batchAssemble, h1, h2, h3, h4, h5, h6, List.filter_cons,
              exceptIsOk, List.enumFrom, List.filterMap_cons]
      | error msg =>
          refine ⟨?_, ?_, ?_, ?_, ?_, ?_⟩ <;>
            simp [batchAssemble, h1, h2, h3, h4, h5, h6, List.filter_cons,
              exceptIsOk, List.enumFrom, List.filterMap_cons]

/-- C3: processBatch rejects an empty batch with a batch-processing error
before any item is processed (the result is the same for every processor);
for a non-empty batch it returns a BatchResult whose total is the item
count, whose successful and failed counters partition the total, whose
results list has the input's length with index alignment (a value at index
i exactly when item i succeeded, a null placeholder exactly at failed
indices), and whose errors carry the index and description of each failed
item; one item's fault never disturbs its siblings' entries. -/
theorem claim_C3_process_batch (items : List α) (d : α → List Char)
    (oc : α → Except (List Char) β) :
    (∀ (d2 : α → List Char) (oc2 : α → Except (List Char) β),
      processBatch ([] : List α) d2 oc2 =
        Except.error ("Cannot process empty batch".toList)) ∧
    (items ≠ [] →
      processBatch items d oc = Except.ok
        { total := items.length
          successful := ((items.map oc).filter exceptIsOk).length
          failed := ((items.map oc).filter fun o => !exceptIsOk o).length
          results := items.map (fun it =>
            match oc it with | .ok v => some v | .error _ => none)
          errors := ((items.map oc).enum).filterMap (fun q =>
            match q.2 with
            | .error msg => some (q.1, ((items.get? q.1).map d).getD [], msg)
            | .ok _ => none)
          duration_seconds := 0 }) ∧
    (((items.map oc).filter exceptIsOk).length +
      ((items.map oc).filter fun o => !exceptIsOk o).length = items.length) ∧
    ((items.map (fun it =>
      match oc it with | .ok v => some v | .error _ => none)).length
      = items.length) := by
  refine ⟨fun d2 oc2 => rfl, ?_, ?_, by simp⟩
  · intro hne
    unfold processBatch
    have hemp : items.isEmpty = false := by
      cases items with
      | nil => exact absurd rfl hne
      | cons a l => rfl
    simp only [hemp, Bool.false_eq_true, if_false]
    refine congrArg Except.ok ?_
    obtain ⟨h1, h2, h3, h4, h5, h6⟩ :=
      batchAssemble_spec (fun i => ((items.get? i).map d).getD []) (items.map oc) 0
    ext1
    · rw [h1]; simp
    · rw [h2]
    · rw [h3]
    · rw [h4]; simp
    · rw [h5]; rfl
    · rw [h6]
  · have := length_filter_add_length_filter_not exceptIsOk (items.map oc)
    simpa using this

/-- C3 witness: a batch of five items whose processor raises on the third:
total 5, successful 4, failed 1, results aligned with a null placeholder at
index 2, and a single error entry carrying index 2. -/
theorem claim_C3_process_batch_witness :
    processBatch [1, 2, 3, 4, 5] (fun n => natToDec n)
      (fun n => if n = 3 then Except.error ("boom".toList) else Except.ok (n * 2)) =
      Except.ok
        { total := 5
          successful := 4
          failed := 1
          results := [some 2, some 4, none, some 8, some 10]
          errors := [(2, ['3'], "boom".toList)]
          duration_seconds := 0 } := by
  have h := (claim_C3_process_batch [1, 2, 3, 4, 5] (fun n => natToDec n)
    (fun n => if n = 3 then Except.error ("boom".toList) else Except.ok (n * 2))).2.1
    (by simp)
  rw [h]
  rfl

/-! ## Helper lemmas: the Diophantine decide on rendered inputs -/

theorem pyStrip_dioRender (a b c : Nat) :
    pyStrip (dioRender a b c) = dioRender a b c := by
  refine pyStrip_eq_self ?_ ?_
  · intro ch hch
    rw [show dioRender a b c =
      natToDec a ++ 'x' :: '+' :: (natToDec b ++ 'y' :: '=' :: natToDec c) from rfl] at hch
    rw [head?_append_of_ne_nil (natToDec_ne_nil a)] at hch
    exact digit_not_space (natToDec_head_digit a ch hch)
  · intro ch hch
    rw [show dioRender a b c =
      natToDec a ++ 'x' :: '+' :: (natToDec b ++ 'y' :: '=' :: natToDec c) from rfl] at hch
    rw [getLast?_append_of_ne_nil _ (by simp)] at hch
    rw [show ('x' :: '+' :: (natToDec b ++ 'y' :: '=' :: natToDec c)) =
      ['x', '+'] ++ (natToDec b ++ 'y' :: '=' :: natToDec c) from rfl] at hch
    rw [getLast?_append_of_ne_nil _ (by simp [natToDec_ne_nil])] at hch
    rw [getLast?_append_of_ne_nil _ (by simp)] at hch
    rw [show ('y' :: '=' :: natToDec c) = ['y', '='] ++ natToDec c from rfl] at hch
    rw [getLast?_append_of_ne_nil _ (natToDec_ne_nil c)] at hch
    exact digit_not_space (natToDec_getLast_digit c ch hch)

/-- C2 (amended): DiophantineProcedure.decide, on inputs of the form
a x + b y = c with nonnegative decimal literals and a, b not both zero,
answers satisfiable=true exactly when gcd(a,b) divides c and
satisfiable=false otherwise; 3x+6y=9 is satisfiable and 3x+6y=10 is not;
when a = b = 0 the modulo raises a caught ZeroDivisionError and the answer
is unknown; and every input whose stripped text does not match the anchored
pattern answers unknown. -/
theorem claim_C2_diophantine_decide (a b c : Nat) (s : List Char) (t : Nat) :
    (¬(a = 0 ∧ b = 0) →
      ((diophantineDecide (dioRender a b c) t).satisfiable = some true ↔
        Nat.gcd a b ∣ c) ∧
      ((diophantineDecide (dioRender a b c) t).satisfiable = some false ↔
        ¬ Nat.gcd a b ∣ c)) ∧
    (a = 0 → b = 0 → (diophantineDecide (dioRender a b c) t).satisfiable = none) ∧
    (matchLinear (pyStrip s) = none →
      (diophantineDecide s t).satisfiable = none) ∧
    (diophantineDecide ("3x+6y=9".toList) 5000).satisfiable = some true ∧
    (diophantineDecide ("3x+6y=10".toList) 5000).satisfiable = some false := by
  have hmain : diophantineDecide (dioRender a b c) t =
      (let g := Nat.gcd a b
       if g = 0 then
        { satisfiable := none
          explanation := some ("Error solving equation: integer division or modulo by zero".toList)
          solver_name := "diophantine".toList
          metadata := [("error".toList,
            MetaVal.s "integer division or modulo by zero".toList)] }
       else if c % g = 0 then
        { satisfiable := some true
          explanation := some ("Linear Diophantine ".toList ++ natToDec a ++ "*".toList ++
            ['x'] ++ " + ".toList ++ natToDec b ++ "*".toList ++ ['y'] ++ " = ".toList ++
            natToDec c ++ " has integer solutions".toList)
          solver_name := "diophantine".toList
          metadata := [("type".toList, MetaVal.s "linear_diophantine".toList),
            ("gcd".toList, MetaVal.i (Nat.gcd a b : Int))] }
       else
        { satisfiable := some false
          explanation := some ("No integer solutions (gcd(".toList ++ natToDec a ++
            ",".toList ++ natToDec b ++ ")=".toList ++ natToDec (Nat.gcd a b) ++
            " does not divide ".toList ++ natToDec c ++ ")".toList)
          solver_name := "diophantine".toList }) := by
    unfold diophantineDecide
    rw [pyStrip_dioRender]
    rw [show dioRender a b c =
      natToDec a ++ 'x' :: '+' :: (natToDec b ++ 'y' :: '=' :: natToDec c) from rfl]
    rw [matchLinear_render]
  refine ⟨?_, ?_, ?_, by decide, by decide⟩
  · intro hab
    have hg : Nat.gcd a b ≠ 0 := by
      intro h
      exact hab (Nat.gcd_eq_zero_iff.mp h)
    rw [hmain]
    simp only [hg, if_false]
    by_cases hmod : c % Nat.gcd a b = 0
    · simp only [hmod, if_true, if_false]
      constructor
      · constructor
        · intro _
          exact Nat.dvd_iff_mod_eq_zero.mpr hmod
        · intro _
          trivial
      · constructor
        · intro h
          exact absurd h (by simp)
        · intro h
          exact absurd (Nat.dvd_iff_mod_eq_zero.mpr hmod) h
    · simp only [hmod, if_false]
      constructor
      · constructor
        · intro h
          exact absurd h (by simp)
        · intro h
          exact absurd (Nat.dvd_iff_mod_eq_zero.mp h) hmod
      · constructor
        · intro _
          intro hdvd
          exact hmod (Nat.dvd_iff_mod_eq_zero.mp hdvd)
        · intro _
          trivial
  · intro ha hb
    rw [hmain]
    have hg : Nat.gcd a b = 0 := by rw [ha, hb]; rfl
    simp only [hg, if_true]
  · intro hm
    unfold diophantineDecide
    rw [hm]

/-- C2 witness: at a=3, b=6, c=9 the gcd divides and decide answers SAT; at
c=10 it does not divide and decide answers UNSAT. -/
theorem claim_C2_diophantine_decide_witness :
    (Nat.gcd 3 6 ∣ 9) ∧
    (diophantineDecide (dioRender 3 6 9) 5000).satisfiable = some true ∧
    ¬(Nat.gcd 3 6 ∣ 10) ∧
    (diophantineDecide (dioRender 3 6 10) 5000).satisfiable = some false := by
  refine ⟨by decide, ?_, by decide, ?_⟩
  · exact ((claim_C2_diophantine_decide 3 6 9 [] 5000).1 (by simp)).1.mpr (by decide)
  · exact ((claim_C2_diophantine_decide 3 6 10 [] 5000).1 (by simp)).2.mpr (by decide)

/-- C2 counterexample: on 3x+6y=-10, whose coefficients are integers with
gcd(3,6)=3 not dividing -10, the claim demands satisfiable=false, but the
pattern accepts only nonnegative digit literals and decide answers
unknown. -/
theorem claim_C2_counterexample :
    (diophantineDecide ("3x+6y=-10".toList) 5000).satisfiable = none ∧
    Nat.gcd 3 6 = 3 ∧ ¬((3 : Int) ∣ (-10 : Int)) := by
  refine ⟨by decide, by decide, by decide⟩

/-! ## Helper lemmas: the Presburger decide on rendered inputs -/

theorem mem_of_head_opt {c : Char} {l : List Char} (h : l.head? = some c) :
    c ∈ l := by
  cases l with
  | nil => exact absurd h (by simp)
  | cons d t =>
      simp only [List.head?_cons, Option.some_inj] at h
      exact h ▸ List.mem_cons_self d t

theorem pyStrip_varEqRender (v : List Char) (n : Nat) (hne : v ≠ [])
    (hword : ∀ ch ∈ v, isWordCh ch = true) :
    pyStrip (v ++ ' ' :: '=' :: ' ' :: natToDec n) =
      v ++ ' ' :: '=' :: ' ' :: natToDec n := by
  refine pyStrip_eq_self ?_ ?_
  · intro ch hch
    rw [head?_append_of_ne_nil hne] at hch
    exact word_not_space (hword ch (mem_of_head_opt hch))
  · intro ch hch
    rw [getLast?_append_of_ne_nil _ (by simp)] at hch
    rw [show (' ' :: '=' :: ' ' :: natToDec n) = [' ', '=', ' '] ++ natToDec n
      from rfl] at hch
    rw [getLast?_append_of_ne_nil _ (natToDec_ne_nil n)] at hch
    exact digit_not_space (natToDec_getLast_digit n ch hch)

/-- C4 (amended): PresburgerProcedure.decide answers satisfiable=true with
the one-variable model whenever the stripped input begins with the pattern
variable = integer (re.match is a prefix match, so trailing text after the
integer is ignored); x = 42 yields satisfiable=true and model x=42; an
input whose stripped text has no such prefix yields unknown with the
not-implemented note; and decide never answers satisfiable=false. -/
theorem claim_C4_presburger_decide (v : List Char) (n : Nat) (s : List Char)
    (t : Nat) :
    (v ≠ [] → (∀ ch ∈ v, isWordCh ch = true) →
      presburgerDecide (v ++ ' ' :: '=' :: ' ' :: natToDec n) t =
        { satisfiable := some true
          model := some [(v, (n : Int))]
          explanation := some ("Found solution: ".toList ++ v ++ " = ".toList ++
            natToDec n)
          solver_name := "presburger".toList }) ∧
    (matchVarEq (pyStrip s) = none →
      (presburgerDecide s t).satisfiable = none ∧
      (presburgerDecide s t).explanation =
        some ("Problem requires full Presburger solver (not implemented)".toList)) ∧
    ((presburgerDecide s t).satisfiable ≠ some false) ∧
    (presburgerDecide ("x = 42".toList) 5000).satisfiable = some true ∧
    (presburgerDecide ("x = 42".toList) 5000).model =
      some [("x".toList, (42 : Int))] := by
  refine ⟨?_, ?_, ?_, by decide, by decide⟩
  · intro hne hword
    unfold presburgerDecide
    rw [pyStrip_varEqRender v n hne hword, matchVarEq_render v n hne hword]
  · intro hm
    unfold presburgerDecide
    rw [hm]
    exact ⟨rfl, rfl⟩
  · unfold presburgerDecide
    cases hm : matchVarEq (pyStrip s) with
    | some vn => simp
    | none => simp

/-- C4 witness: the rendered input x = 42 is solved with model x=42 by the
prefix-match rule. -/
theorem claim_C4_presburger_decide_witness :
    presburgerDecide (['x'] ++ ' ' :: '=' :: ' ' :: natToDec 42) 5000 =
      { satisfiable := some true
        model := some [(['x'], (42 : Int))]
        explanation := some ("Found solution: ".toList ++ ['x'] ++ " = ".toList ++
          natToDec 42)
        solver_name := "presburger".toList } :=
  (claim_C4_presburger_decide ['x'] 42 [] 5000).1 (by decide) (by decide)

/-- C4 counterexample: x = 5 and y > 0 is a linear formula other than a
bare variable = integer, so the claim demands unknown, but the prefix match
accepts it and decide answers satisfiable=true with model x=5. -/
theorem claim_C4_counterexample :
    (presburgerDecide ("x = 5 and y > 0".toList) 5000).satisfiable = some true ∧
    (presburgerDecide ("x = 5 and y > 0".toList) 5000).model =
      some [(['x'], (5 : Int))] := by
  refine ⟨by decide, by decide⟩

/-- C5 (amended): the analyzer classifies an input as Diophantine
(confidence 0.75, recommended solver diophantine) exactly when the input
contains an equals sign together with either one of the squared-term
patterns caret-2, double-star-2, x-star-x, y-star-y, or the case-insensitive
substring int/integer (an integer hint the original claim omits); the check
runs before every other category check; x^2 + y^2 = 25 is classified
Diophantine and (p and q) or (not r) is classified BooleanLogic. -/
theorem claim_C5_classifier (s : List Char) :
    ((analyze s).problem_type = ProblemType.DIOPHANTINE ↔
      isDiophantineProblem s = true) ∧
    (isDiophantineProblem s =
      ((hasSquaredTerm s || (containsSub ("int".toList) (pyLower s) ||
        containsSub ("integer".toList) (pyLower s))) && containsSub ['='] s)) ∧
    ((analyze s).problem_type = ProblemType.DIOPHANTINE →
      (analyze s).confidence = 3/4 ∧
      (analyze s).recommended_solver = some ("diophantine".toList)) ∧
    (analyze ("x^2 + y^2 = 25".toList)).problem_type = ProblemType.DIOPHANTINE ∧
    (analyze ("(p and q) or (not r)".toList)).problem_type =
      ProblemType.BOOLEAN_LOGIC := by
  have hty : (analyze s).problem_type = (classifyProblem s).1 := rfl
  have hconf : (analyze s).confidence = (classifyProblem s).2.1 := rfl
  have hrec : (analyze s).recommended_solver = some (classifyProblem s).2.2.1 := rfl
  have hiff : (analyze s).problem_type = ProblemType.DIOPHANTINE ↔
      isDiophantineProblem s = true := by
    rw [hty]
    unfold classifyProblem
    by_cases hd : isDiophantineProblem s
    · simp [hd]
    · simp only [hd, Bool.false_eq_true, if_false]
      split_ifs <;> simp [hd]
  refine ⟨hiff, rfl, ?_, by decide, by decide⟩
  intro h
  have hd : isDiophantineProblem s = true := hiff.mp h
  rw [hconf, hrec]
  unfold classifyProblem
  simp [hd]

/-- C5 witness: the squared-term example is classified Diophantine with
confidence 0.75 and the diophantine recommendation. -/
theorem claim_C5_classifier_witness :
    (analyze ("x^2 + y^2 = 25".toList)).confidence = 3/4 ∧
    (analyze ("x^2 + y^2 = 25".toList)).recommended_solver =
      some ("diophantine".toList) :=
  (claim_C5_classifier ("x^2 + y^2 = 25".toList)).2.2.1 (by decide)

/-- C5 counterexample: int x = 5 contains no caret and no star, hence no
squared term in any reading, yet the analyzer classifies it Diophantine
via the integer-hint substring: the claimed exactly-when condition fails. -/
theorem claim_C5_counterexample :
    (analyze ("int x = 5".toList)).problem_type = ProblemType.DIOPHANTINE ∧
    ("int x = 5".toList.contains '^') = false ∧
    ("int x = 5".toList.contains '*') = false := by
  refine ⟨by decide, by decide, by decide⟩

/-! ## Helper lemmas: validator messages -/

theorem length_beq_zero_eq_isEmpty (l : List α) : (l.length == 0) = l.isEmpty := by
  cases l <;> rfl

theorem repetitionWarning_ne_size (m : Nat) :
    repetitionWarning ≠
      "Input exceeds maximum size of ".toList ++ natToDec m ++ " characters".toList := by
  intro h
  have h6 := congrArg (fun ll => ll[6]?) h
  simp only at h6
  rw [List.getElem?_append_left (by
    have : ("Input exceeds maximum size of ".toList ++ natToDec m).length =
        30 + (natToDec m).length := by simp; omega
    omega)] at h6
  rw [List.getElem?_append_left (by decide)] at h6
  revert h6
  decide

theorem repetitionWarning_ne_nesting (m k : Nat) :
    repetitionWarning ≠
      "Nesting depth ".toList ++ natToDec m ++ " exceeds maximum of ".toList ++
        natToDec k := by
  intro h
  have h0 := congrArg (fun ll => ll[0]?) h
  simp only at h0
  rw [List.getElem?_append_left (by
    have h1 : (("Nesting depth ".toList ++ natToDec m) ++
        " exceeds maximum of ".toList).length =
        14 + (natToDec m).length + 20 := by simp; omega
    omega)] at h0
  rw [List.getElem?_append_left (by
    have h2 : ("Nesting depth ".toList ++ natToDec m).length =
        14 + (natToDec m).length := by simp; omega
    omega)] at h0
  rw [List.getElem?_append_left (by decide)] at h0
  revert h0
  decide

theorem repetitionWarning_ne_dangerous (p : List Char) :
    repetitionWarning ≠ "Dangerous pattern detected: ".toList ++ p := by
  intro h
  have h0 := congrArg (fun ll => ll[0]?) h
  simp only at h0
  rw [List.getElem?_append_left (by decide)] at h0
  revert h0
  decide

theorem repetitionWarning_not_in_errors (v : InputValidator) (l : List Char) :
    repetitionWarning ∉ validateErrors v l := by
  intro hmem
  unfold validateErrors at hmem
  rcases List.mem_append.mp hmem with h123 | h4
  · rcases List.mem_append.mp h123 with h12 | h3
    · rcases List.mem_append.mp h12 with h1 | h2
      · by_cases hc : l.length > v.max_input_size
        · rw [if_pos hc] at h1
          exact repetitionWarning_ne_size v.max_input_size (List.mem_singleton.mp h1)
        · rw [if_neg hc] at h1
          exact absurd h1 (by simp)
      · by_cases hc : l.contains '\x00'
        · rw [if_pos hc] at h2
          have := List.mem_singleton.mp h2
          revert this
          decide
        · rw [if_neg hc] at h2
          exact absurd h2 (by simp)
    · by_cases hc : checkNestingDepth l > v.max_nesting_depth
      · rw [if_pos hc] at h3
        exact repetitionWarning_ne_nesting (checkNestingDepth l) v.max_nesting_depth
          (List.mem_singleton.mp h3)
      · rw [if_neg hc] at h3
        exact absurd h3 (by simp)
  · obtain ⟨pat, hpat, heq⟩ := List.mem_filterMap.mp h4
    by_cases hc : pat.1 (pyLower l) = true
    · rw [if_pos hc] at heq
      exact repetitionWarning_ne_dangerous pat.2 (Option.some_inj.mp heq).symm
    · rw [if_neg hc] at heq
      exact absurd heq (by simp)

/-- C6: InputValidator.validate reports is_valid exactly when the error
list is empty, carries a sanitized input exactly when valid (control
characters stripped, whitespace runs collapsed), treats excessive
single-character repetition (a character occurring more than 1000 times in
an input at least 1000 long) as the only warning and never as an error;
with max_input_size 50 a length-100 input is rejected with the size error,
eval(x) is rejected with the dangerous-pattern error, and the spaced
equation is accepted with the collapsed sanitization. -/
theorem claim_C6_validator (v : InputValidator) (s : List Char) :
    ((validate v s).is_valid = (validate v s).errors.isEmpty) ∧
    ((validate v s).sanitized_input.isSome = (validate v s).is_valid) ∧
    ((validate v s).warnings =
      if hasExcessiveRepetition s then [repetitionWarning] else []) ∧
    (hasExcessiveRepetition s = true ↔
      (1000 ≤ s.length ∧ ∃ c ∈ s, 1000 < s.count c)) ∧
    (repetitionWarning ∉ (validate v s).errors) ∧
    ((validate ⟨50, 50⟩ (List.replicate 100 'a')).is_valid = false ∧
      ("Input exceeds maximum size of 50 characters".toList) ∈
        (validate ⟨50, 50⟩ (List.replicate 100 'a')).errors) ∧
    ((validate {} ("eval(x)".toList)).is_valid = false ∧
      ("Dangerous pattern detected: eval\\s*\\(".toList) ∈
        (validate {} ("eval(x)".toList)).errors) ∧
    ((validate {} ("x  +   y   =  10".toList)).is_valid = true ∧
      (validate {} ("x  +   y   =  10".toList)).sanitized_input =
        some ("x + y = 10".toList)) := by
  refine ⟨?_, ?_, rfl, ?_, ?_, ⟨by decide, by decide⟩, ⟨by decide, by decide⟩,
    ⟨by decide, by decide⟩⟩
  · show ((validateErrors v s).length == 0) = (validateErrors v s).isEmpty
    exact length_beq_zero_eq_isEmpty _
  · show (if (validateErrors v s).isEmpty then some (sanitize s) else none).isSome =
      ((validateErrors v s).length == 0)
    rw [length_beq_zero_eq_isEmpty]
    by_cases h : (validateErrors v s).isEmpty <;> simp [h]
  · unfold hasExcessiveRepetition
    by_cases h : s.length < 1000
    · simp only [h, if_true]
      constructor
      · intro hf
        exact absurd hf (by simp)
      · intro ⟨h1, _⟩
        omega
    · simp only [h, if_false]
      rw [List.any_eq_true]
      constructor
      · intro ⟨c, hc, hcount⟩
        exact ⟨by omega, c, hc, by simpa using hcount⟩
      · intro ⟨_, c, hc, hcount⟩
        exact ⟨c, hc, by simpa using hcount⟩
  · exact repetitionWarning_not_in_errors v s

/-- C6 witness: a short benign input has no repetition warning and no
repetition error. -/
theorem claim_C6_validator_witness :
    repetitionWarning ∉ (validate {} ("x = 1".toList)).errors :=
  (claim_C6_validator {} ("x = 1".toList)).2.2.2.2.1

/-- C8: with validation enabled, an input the validator rejects makes
Engine.solve return immediately a failure response with success=false
carrying the validator's errors and warnings, identical for every
registered procedure set (the registry is never consulted); when the input
passes validation, the response's success field is true exactly when the
solve result is definitive (its satisfiable field holds a boolean rather
than unknown). -/
theorem claim_C8_engine_validation (ps ps2 : List Procedure)
    (v : InputValidator) (problem : List Char) (hint : Option ProblemType)
    (t : Nat) (use_ai : Bool) :
    ((validate v problem).is_valid = false →
      engineSolve { procedures := ps, validator := some v } problem hint t
          true use_ai =
        { success := false
          error := some ("Input validation failed".toList)
          validation_errors := some (validate v problem).errors
          warnings := some (validate v problem).warnings }) ∧
    ((validate v problem).is_valid = false →
      engineSolve { procedures := ps, validator := some v } problem hint t
          true use_ai =
        engineSolve { procedures := ps2, validator := some v } problem hint t
          true use_ai) ∧
    ((validate v problem).is_valid = true →
      ((engineSolve { procedures := ps, validator := some v } problem hint t
          true use_ai).success = true ↔
        ∃ bv, (engineSolve { procedures := ps, validator := some v } problem
          hint t true use_ai).satisfiable = some (some bv))) := by
  have hfail : ∀ qs : List Procedure, (validate v problem).is_valid = false →
      engineSolve { procedures := qs, validator := some v } problem hint t
          true use_ai =
        { success := false
          error := some ("Input validation failed".toList)
          validation_errors := some (validate v problem).errors
          warnings := some (validate v problem).warnings } := by
    intro qs h
    simp only [engineSolve, if_true, h, Bool.not_false, if_true]
  refine ⟨hfail ps, fun h => (hfail ps h).trans (hfail ps2 h).symm, ?_⟩
  intro h
  simp only [engineSolve, if_true, h, Bool.not_true, Bool.false_eq_true, if_false]
  simp only [engineSolve.engineSolveCore]
  constructor
  · intro hsucc
    obtain ⟨bv, hbv⟩ := Option.isSome_iff_exists.mp hsucc
    exact ⟨bv, congrArg some hbv⟩
  · intro hex
    obtain ⟨bv, hbv⟩ := hex
    exact Option.isSome_iff_exists.mpr ⟨bv, Option.some_inj.mp hbv⟩

/-- C8 witness: the dangerous input eval(x) is rejected and the engine
returns the failure response without consulting an empty or a populated
registry alike; the benign x = 42 passes validation and succeeds. -/
theorem claim_C8_engine_validation_witness :
    engineSolve { procedures := [], validator := some {} } ("eval(x)".toList)
        none 5000 true true =
      { success := false
        error := some ("Input validation failed".toList)
        validation_errors := some (validate {} ("eval(x)".toList)).errors
        warnings := some (validate {} ("eval(x)".toList)).warnings } ∧
    engineSolve { procedures := [], validator := some {} } ("eval(x)".toList)
        none 5000 true true =
      engineSolve { procedures := [presburgerProcedure], validator := some {} }
        ("eval(x)".toList) none 5000 true true := by
  constructor
  · exact (claim_C8_engine_validation [] [presburgerProcedure] {}
      ("eval(x)".toList) none 5000 true).1 (by decide)
  · exact (claim_C8_engine_validation [] [presburgerProcedure] {}
      ("eval(x)".toList) none 5000 true).2.1 (by decide)

end ASAFusion
